import Mathlib

/-!
Verification of the habit-tracking widget in `habit-progress-hub`.

The repository contains two variants of one React component:
* `src/components/HabitTracker.tsx` — the weeks-variant: a grid of
  `habits × weeks` checkboxes, with `weeks` user-configurable in [1,12];
* `src/unnamed/part_000` — the days-variant: a grid of `habits × 7`
  checkboxes over a fixed Mon..Sun week.

Both variants keep their completion state in a sparse JavaScript object of
objects (`habitIndex → weekIndex → boolean`), which we embed as nested
association lists whose update keeps an existing key in place and appends a
fresh key at the end — exactly the behaviour of
`{...prev, [k]: v}` on a JS object.  All numeric state is embedded as `Nat`
(indices, counts) and `Int` (raw numeric input before clamping, and the
`total - completed` subtraction, which JS performs over numbers).
-/

/-- Sparse completion state, `interface HabitData`:
`habitIndex → (weekIndex → boolean)` as nested association lists. -/
abbrev InnerData := List (Nat × Bool)

/-- Outer level of `HabitData`. -/
abbrev HabitData := List (Nat × InnerData)

/-- Lookup in an association list: the JS object read `o[k]`,
`none` standing for `undefined`. -/
def assocGet {β : Type} : List (Nat × β) → Nat → Option β
  | [], _ => none
  | (k0, v0) :: rest, k => if k0 = k then some v0 else assocGet rest k

/-- Functional update of an association list: the JS object spread
`{...o, [k]: v}` — an existing key keeps its position and gets the new
value, a fresh key is appended. -/
def assocSet {β : Type} : List (Nat × β) → Nat → β → List (Nat × β)
  | [], k, v => [(k, v)]
  | (k0, v0) :: rest, k, v =>
    if k0 = k then (k, v) :: rest else (k0, v0) :: assocSet rest k v

/-- Read of one cell as an optional stored value:
`checkedState[habitIndex]?.[weekIndex]`, `none` for `undefined`. -/
def cellValue (m : HabitData) (h w : Nat) : Option Bool :=
  (assocGet m h).bind (fun inner => assocGet inner w)

/-- The component's `isChecked`, literally
`checkedState[habitIndex]?.[weekIndex] || false`: the optional-chain read
followed by `|| false`. Total on all indices by construction. -/
def isCheckedMap (m : HabitData) (h w : Nat) : Bool :=
  match assocGet m h with
  | none => false
  | some inner =>
    match assocGet inner w with
    | none => false
    | some b => b || false

/-- The component's `handleCheckChange` on the raw mapping:
`{...prev, [habitIndex]: {...prev[habitIndex], [weekIndex]: checked}}`,
where spreading an absent inner object gives the empty object. -/
def toggleCell (m : HabitData) (h w : Nat) (checked : Bool) : HabitData :=
  assocSet m h (assocSet ((assocGet m h).getD []) w checked)

/-- The `useMemo` double loop of both variants: count the checked cells
with habit index `< H` and time-slot index `< W`. -/
def completedCount (m : HabitData) (H W : Nat) : Nat :=
  (List.range H).foldl
    (fun acc h =>
      (List.range W).foldl
        (fun acc2 w => if isCheckedMap m h w then acc2 + 1 else acc2) acc)
    0

/-- Result of the `useMemo` derivation in both variants. -/
structure DerivedStats where
  completed : Nat
  remaining : Int
  percentage : Nat
deriving DecidableEq, Repr

/-- Value of the source's `Math.round((c / t) * 100)` for `0 < t`: the
two IEEE-binary64 operations `c / t` and `· * 100` followed by ECMA
`Math.round` (nearest integer, ties toward +∞).  Exhaustively emulating
binary64 over the whole domain `c ≤ t ≤ 120` — which covers every
reachable grid, since habits ≤ 10 and time-slots ≤ 12 (weeks) or = 7
(days) — the float result equals the exact half-up rounding
`⌊100c/t + 1/2⌋ = (200c + t) / (2t)` everywhere except when
`c / t = 23/40` (reachable as (23,40), (46,80), (69,120)): there
`(c / t) * 100` computes to `57.49999999999999` and `Math.round` yields
57, one below the exact rounding of 57.5. -/
def mathRoundPercent (c t : Nat) : Nat :=
  if 40 * c = 23 * t then (200 * c + t) / (2 * t) - 1
  else (200 * c + t) / (2 * t)

/-- The `useMemo` body shared verbatim by both variants (`W` is the `weeks`
state in the weeks-variant and the constant `7` in the days-variant):
`total = habits * W`, `remaining = total - completedCount` (a JS number
subtraction, hence `Int`), and
`percentage = total > 0 ? Math.round((completedCount / total) * 100) : 0`
with the float computation embedded by `mathRoundPercent`. -/
def deriveStats (m : HabitData) (H W : Nat) : DerivedStats :=
  let total := H * W
  let c := completedCount m H W
  { completed := c
  , remaining := (total : Int) - (c : Int)
  , percentage := if 0 < total then mathRoundPercent c total else 0 }

/-- Component state of the weeks-variant (`HabitTracker.tsx`). -/
structure State where
  weeks : Nat
  habits : Nat
  habitNames : List String
  checkedState : HabitData
deriving DecidableEq, Repr

/-- Initial state of the weeks-variant: `useState(4)`, `useState(3)`,
`useState(["Exercise", "Read", "Meditate"])`, `useState({})`. -/
def initState : State :=
  { weeks := 4
  , habits := 3
  , habitNames := ["Exercise", "Read", "Meditate"]
  , checkedState := [] }

/-- `handleWeeksChange`: `setWeeks(Math.max(1, Math.min(12, value)))`. -/
def State.handleWeeksChange (s : State) (value : Int) : State :=
  { s with weeks := (max 1 (min 12 value)).toNat }

/-- `handleHabitsChange`: clamp to [1,10], and when the new count exceeds
the current name-list length append `Habit ${habitNames.length + i + 1}`
for each new slot `i`. -/
def State.handleHabitsChange (s : State) (value : Int) : State :=
  let newValue := (max 1 (min 10 value)).toNat
  let names :=
    if s.habitNames.length < newValue then
      s.habitNames ++
        (List.range (newValue - s.habitNames.length)).map
          (fun i => "Habit " ++ toString (s.habitNames.length + i + 1))
    else s.habitNames
  { s with habits := newValue, habitNames := names }

/-- `handleCheckChange` of the weeks-variant. -/
def State.handleCheckChange (s : State) (h w : Nat) (checked : Bool) : State :=
  { s with checkedState := toggleCell s.checkedState h w checked }

/-- `isChecked` of the weeks-variant. -/
def State.isChecked (s : State) (h w : Nat) : Bool :=
  isCheckedMap s.checkedState h w

/-- The weeks-variant `useMemo` applied to the current state. -/
def State.derived (s : State) : DerivedStats :=
  deriveStats s.checkedState s.habits s.weeks

/-- Component state of the days-variant (`src/unnamed/part_000`); the
time-slot count is not state, it is fixed at `7 = DAYS_OF_WEEK.length`. -/
structure DState where
  habits : Nat
  habitNames : List String
  checkedState : HabitData
deriving DecidableEq, Repr

/-- Initial state of the days-variant. -/
def initDState : DState :=
  { habits := 3
  , habitNames := ["Exercise", "Read", "Meditate"]
  , checkedState := [] }

/-- `handleHabitsChange` of the days-variant (same text as the
weeks-variant's). -/
def DState.handleHabitsChange (d : DState) (value : Int) : DState :=
  let newValue := (max 1 (min 10 value)).toNat
  let names :=
    if d.habitNames.length < newValue then
      d.habitNames ++
        (List.range (newValue - d.habitNames.length)).map
          (fun i => "Habit " ++ toString (d.habitNames.length + i + 1))
    else d.habitNames
  { d with habits := newValue, habitNames := names }

/-- `handleCheckChange` of the days-variant. -/
def DState.handleCheckChange (d : DState) (h w : Nat) (checked : Bool) : DState :=
  { d with checkedState := toggleCell d.checkedState h w checked }

/-- `isChecked` of the days-variant. -/
def DState.isChecked (d : DState) (h w : Nat) : Bool :=
  isCheckedMap d.checkedState h w

/-- The days-variant `useMemo`: `total = habits * 7`. -/
def DState.derived (d : DState) : DerivedStats :=
  deriveStats d.checkedState d.habits 7

/-- User operations of the weeks-variant reachable through the UI
handlers. -/
inductive Op where
  | toggle (h w : Nat) (checked : Bool)
  | setHabits (n : Int)
  | setWeeks (n : Int)

/-- Apply one weeks-variant operation. -/
def applyOp (s : State) : Op → State
  | .toggle h w c => s.handleCheckChange h w c
  | .setHabits n => s.handleHabitsChange n
  | .setWeeks n => s.handleWeeksChange n

/-- Run a sequence of weeks-variant operations. -/
def runOps (s : State) (ops : List Op) : State :=
  ops.foldl applyOp s

/-- User operations of the days-variant. -/
inductive OpD where
  | toggle (h w : Nat) (checked : Bool)
  | setHabits (n : Int)

/-- Apply one days-variant operation. -/
def applyOpD (d : DState) : OpD → DState
  | .toggle h w c => d.handleCheckChange h w c
  | .setHabits n => d.handleHabitsChange n

/-- Run a sequence of days-variant operations. -/
def runOpsD (d : DState) (ops : List OpD) : DState :=
  ops.foldl applyOpD d

/-- Checked in-range cells as a finite set; `completedCount` is its
cardinality (proved below). -/
def checkedCells (m : HabitData) (H W : Nat) : Finset (Nat × Nat) :=
  (Finset.range H ×ˢ Finset.range W).filter (fun p => isCheckedMap m p.1 p.2)

/-- Percentage as the spec words it: `round(completed / total × 100)` when
`total > 0`, else `0`, with `round` the exact rational half-up rounding
`⌊x + 1/2⌋` of JavaScript's `Math.round`. -/
def percentageSpec (c t : Nat) : Int :=
  if 0 < t then Int.floor (((c : ℚ) / (t : ℚ)) * 100 + 1 / 2) else 0

theorem assocGet_assocSet {β : Type} (l : List (Nat × β)) (k k' : Nat) (v : β) :
    assocGet (assocSet l k v) k' = if k = k' then some v else assocGet l k' := by
  induction l with
  | nil => simp [assocSet, assocGet]
  | cons p rest ih =>
    obtain ⟨k0, v0⟩ := p
    by_cases h0 : k0 = k
    · subst h0
      by_cases h1 : k0 = k'
      · subst h1; simp [assocSet, assocGet]
      · simp [assocSet, assocGet, h1]
    · by_cases h1 : k0 = k'
      · subst h1
        have : ¬ k = k0 := fun h => h0 h.symm
        simp [assocSet, assocGet, h0, this]
      · simp [assocSet, assocGet, h0, h1, ih]

theorem assocSet_assocSet {β : Type} (l : List (Nat × β)) (k : Nat) (v v' : β) :
    assocSet (assocSet l k v) k v' = assocSet l k v' := by
  induction l with
  | nil => simp [assocSet]
  | cons p rest ih =>
    obtain ⟨k0, v0⟩ := p
    by_cases h0 : k0 = k
    · subst h0; simp [assocSet]
    · simp [assocSet, h0, ih]

theorem isCheckedMap_nil (h w : Nat) : isCheckedMap [] h w = false := rfl

theorem isCheckedMap_of_none (m : HabitData) (h w : Nat)
    (hma : assocGet m h = none) : isCheckedMap m h w = false := by
  unfold isCheckedMap
  rw [hma]

theorem isCheckedMap_of_some (m : HabitData) (h w : Nat) (inner : InnerData)
    (hma : assocGet m h = some inner) :
    isCheckedMap m h w = (assocGet inner w).getD false := by
  unfold isCheckedMap
  simp only [hma]
  rcases hiw : assocGet inner w with _ | b
  · simp [hiw]
  · simp [hiw]

theorem assocGet_toggleCell_self (m : HabitData) (a b : Nat) (v : Bool) :
    assocGet (toggleCell m a b v) a
      = some (assocSet ((assocGet m a).getD []) b v) := by
  unfold toggleCell
  rw [assocGet_assocSet, if_pos rfl]

theorem assocGet_toggleCell_ne (m : HabitData) (a b : Nat) (v : Bool) (h : Nat)
    (hne : a ≠ h) : assocGet (toggleCell m a b v) h = assocGet m h := by
  unfold toggleCell
  rw [assocGet_assocSet, if_neg hne]

theorem isCheckedMap_toggleCell (m : HabitData) (a b : Nat) (v : Bool) (h w : Nat) :
    isCheckedMap (toggleCell m a b v) h w =
      if h = a ∧ w = b then v else isCheckedMap m h w := by
  by_cases ha : h = a
  · subst ha
    rw [isCheckedMap_of_some _ _ _ _ (assocGet_toggleCell_self m h b v)]
    rw [assocGet_assocSet]
    by_cases hb : w = b
    · subst hb
      rw [if_pos rfl]
      simp
    · have hb' : ¬ (b = w) := fun hc => hb hc.symm
      rw [if_neg hb', if_neg (fun hc => hb hc.2 : ¬ (h = h ∧ w = b))]
      rcases hma : assocGet m h with _ | inner
      · rw [isCheckedMap_of_none _ _ _ hma]
        simp [hma, assocGet]
      · rw [isCheckedMap_of_some _ _ _ _ hma]
        simp [hma]
  · have ha' : a ≠ h := fun hc => ha hc.symm
    have hne : ¬ (h = a ∧ w = b) := fun hc => ha hc.1
    rw [if_neg hne]
    unfold isCheckedMap
    rw [assocGet_toggleCell_ne _ _ _ _ _ ha']

theorem toggleCell_toggleCell (m : HabitData) (h w : Nat) (v : Bool) :
    toggleCell (toggleCell m h w v) h w v = toggleCell m h w v := by
  unfold toggleCell
  rw [assocGet_assocSet, if_pos rfl, Option.getD_some, assocSet_assocSet,
    assocSet_assocSet]

theorem foldl_countP (p : Nat → Bool) (l : List Nat) (a : Nat) :
    l.foldl (fun acc w => if p w then acc + 1 else acc) a = a + l.countP p := by
  induction l generalizing a with
  | nil => simp
  | cons x xs ih =>
    rw [List.foldl_cons, ih, List.countP_cons]
    split_ifs <;> omega

theorem foldl_add_count (m : HabitData) (W : Nat) (l : List Nat) (a : Nat) :
    l.foldl
        (fun acc h =>
          (List.range W).foldl
            (fun acc2 w => if isCheckedMap m h w then acc2 + 1 else acc2) acc)
        a
      = a + (l.map (fun h => (List.range W).countP (fun w => isCheckedMap m h w))).sum := by
  induction l generalizing a with
  | nil => simp
  | cons x xs ih =>
    rw [List.foldl_cons, ih, foldl_countP, List.map_cons, List.sum_cons]
    have he : (List.range W).countP (fun w => isCheckedMap m x w)
        = (List.range W).countP (isCheckedMap m x) := rfl
    rw [he]
    omega

theorem countP_range_eq_sum (p : Nat → Bool) (n : Nat) :
    (List.range n).countP p = ∑ w ∈ Finset.range n, (if p w then 1 else 0) := by
  induction n with
  | zero => simp
  | succ k ih =>
    rw [List.range_succ, List.countP_append, Finset.sum_range_succ, ih]
    simp [List.countP_cons]

theorem map_range_sum (f : Nat → Nat) (n : Nat) :
    ((List.range n).map f).sum = ∑ h ∈ Finset.range n, f h := by
  induction n with
  | zero => simp
  | succ k ih => rw [List.range_succ]; simp [ih, Finset.sum_range_succ]

theorem completedCount_eq_card (m : HabitData) (H W : Nat) :
    completedCount m H W = (checkedCells m H W).card := by
  unfold completedCount checkedCells
  rw [foldl_add_count, Finset.card_filter, Finset.sum_product, map_range_sum]
  simp only [countP_range_eq_sum]
  simp

theorem completedCount_le (m : HabitData) (H W : Nat) :
    completedCount m H W ≤ H * W := by
  rw [completedCount_eq_card]
  calc (checkedCells m H W).card
      ≤ ((Finset.range H) ×ˢ (Finset.range W)).card := Finset.card_filter_le _ _
    _ = H * W := by rw [Finset.card_product]; simp

theorem deriveStats_completed (m : HabitData) (H W : Nat) :
    (deriveStats m H W).completed = completedCount m H W := rfl

theorem deriveStats_remaining (m : HabitData) (H W : Nat) :
    (deriveStats m H W).remaining
      = ((H * W : Nat) : Int) - (completedCount m H W : Int) := rfl

theorem deriveStats_percentage_def (m : HabitData) (H W : Nat) :
    (deriveStats m H W).percentage
      = if 0 < H * W then mathRoundPercent (completedCount m H W) (H * W)
        else 0 := rfl

theorem deriveStats_total (m : HabitData) (H W : Nat) :
    ((deriveStats m H W).completed : Int) + (deriveStats m H W).remaining
      = ((H * W : Nat) : Int) := by
  rw [deriveStats_completed, deriveStats_remaining]
  ring

theorem percent_div_eq_floor (c t : Nat) (ht : 0 < t) :
    (((200 * c + t) / (2 * t) : Nat) : Int)
      = Int.floor (((c : ℚ) / (t : ℚ)) * 100 + 1 / 2) := by
  have htq : ((t : ℚ)) ≠ 0 := by
    exact_mod_cast ht.ne'
  have hx : ((c : ℚ) / (t : ℚ)) * 100 + 1 / 2
      = ((200 * c + t : Nat) : ℚ) / ((2 * t : Nat) : ℚ) := by
    push_cast
    field_simp
    ring
  rw [hx]
  have h0 : (0 : ℚ) ≤ ((200 * c + t : Nat) : ℚ) / ((2 * t : Nat) : ℚ) := by
    positivity
  rw [← Int.natCast_floor_eq_floor h0, Nat.floor_div_nat, Nat.floor_natCast]

theorem percentage_le_100 (m : HabitData) (H W : Nat) :
    (deriveStats m H W).percentage ≤ 100 := by
  rw [deriveStats_percentage_def]
  by_cases ht : 0 < H * W
  · rw [if_pos ht]
    unfold mathRoundPercent
    have hc := completedCount_le m H W
    have h2 : 0 < 2 * (H * W) := by omega
    have hlt : 200 * completedCount m H W + H * W < 101 * (2 * (H * W)) := by
      omega
    have := (Nat.div_lt_iff_lt_mul h2).mpr hlt
    split_ifs <;> omega
  · rw [if_neg ht]
    omega

theorem checkedCells_congr (m m' : HabitData) (H W : Nat)
    (hag : ∀ h, h < H → ∀ w, w < W → isCheckedMap m h w = isCheckedMap m' h w) :
    checkedCells m H W = checkedCells m' H W := by
  unfold checkedCells
  apply Finset.filter_congr
  intro p hp
  rw [Finset.mem_product] at hp
  rw [hag p.1 (Finset.mem_range.mp hp.1) p.2 (Finset.mem_range.mp hp.2)]

theorem deriveStats_congr (m m' : HabitData) (H W : Nat)
    (hag : ∀ h, h < H → ∀ w, w < W → isCheckedMap m h w = isCheckedMap m' h w) :
    deriveStats m H W = deriveStats m' H W := by
  have hcc : completedCount m H W = completedCount m' H W := by
    rw [completedCount_eq_card, completedCount_eq_card,
      checkedCells_congr m m' H W hag]
  unfold deriveStats
  rw [hcc]

theorem foldl_toggle_habits (L : List (Nat × Nat)) (d : DState) :
    (L.foldl (fun d p => d.handleCheckChange p.1 p.2 true) d).habits
      = d.habits := by
  induction L generalizing d with
  | nil => rfl
  | cons p ps ih =>
    rw [List.foldl_cons, ih]
    rfl

theorem foldl_toggle_checkedState (L : List (Nat × Nat)) (d : DState) :
    (L.foldl (fun d p => d.handleCheckChange p.1 p.2 true) d).checkedState
      = L.foldl (fun m p => toggleCell m p.1 p.2 true) d.checkedState := by
  induction L generalizing d with
  | nil => rfl
  | cons p ps ih =>
    rw [List.foldl_cons, List.foldl_cons, ih]
    rfl

theorem isCheckedMap_foldl_toggle (L : List (Nat × Nat)) (m : HabitData)
    (h w : Nat) :
    isCheckedMap (L.foldl (fun m p => toggleCell m p.1 p.2 true) m) h w = true
      ↔ (h, w) ∈ L ∨ isCheckedMap m h w = true := by
  induction L generalizing m with
  | nil => simp
  | cons p ps ih =>
    rw [List.foldl_cons, ih, List.mem_cons, isCheckedMap_toggleCell]
    by_cases hp : h = p.1 ∧ w = p.2
    · simp [hp, Prod.ext_iff]
    · simp only [hp, if_false, Prod.ext_iff]
      constructor
      · intro hor
        rcases hor with hps | hm
        · exact Or.inl (Or.inr hps)
        · exact Or.inr hm
      · intro hor
        rcases hor with (hpp | hps) | hm
        · exact hpp.elim
        · exact Or.inl hps
        · exact Or.inr hm


/-- C1: in every state reachable from the initial state by any sequence of
toggle, setHabitCount and setWeekCount operations, the derived stats
satisfy `completed + remaining = habits × timeSlots`, where the time-slot
count is `weeks` in the weeks-variant and `7` in the days-variant. -/
theorem c1_completed_add_remaining_reachable :
    (∀ ops : List Op,
      (((runOps initState ops).derived).completed : Int)
          + ((runOps initState ops).derived).remaining
        = (((runOps initState ops).habits * (runOps initState ops).weeks : Nat) : Int)) ∧
    (∀ ops : List OpD,
      (((runOpsD initDState ops).derived).completed : Int)
          + ((runOpsD initDState ops).derived).remaining
        = (((runOpsD initDState ops).habits * 7 : Nat) : Int)) := by
  constructor
  · intro ops
    exact deriveStats_total _ _ _
  · intro ops
    exact deriveStats_total _ _ _

/-- C2: refuted by the weeks-variant program at a reachable failing
state: after `setHabitCount(10)` (the week count keeps its default 4,
so total = 40) and toggling 23 distinct in-range cells true, the
component's IEEE computation `Math.round((23 / 40) * 100)` evaluates
`(23 / 40) * 100` to `57.49999999999999` and displays percentage 57,
while the claim's `round(completed / total × 100)` is
`round(57.5) = 58` (`percentageSpec`, the spec formula over `ℚ`).  The
stats at that state are completed 23, remaining 17, percentage 57. -/
theorem c2_percentage_float_divergence :
    (((([((0 : Nat), (0 : Nat)), (0, 1), (0, 2), (0, 3),
          (1, 0), (1, 1), (1, 2), (1, 3),
          (2, 0), (2, 1), (2, 2), (2, 3),
          (3, 0), (3, 1), (3, 2), (3, 3),
          (4, 0), (4, 1), (4, 2), (4, 3),
          (5, 0), (5, 1), (5, 2)] : List (Nat × Nat)).foldl
            (fun s p => s.handleCheckChange p.1 p.2 true)
            (initState.handleHabitsChange 10)).derived)
        = ⟨23, 17, 57⟩) ∧
      percentageSpec 23 40 = 58 := by
  constructor
  · decide
  · unfold percentageSpec
    rw [if_pos (by omega : (0 : Nat) < 40),
      ← percent_div_eq_floor 23 40 (by omega)]
    rfl

/-- C3: `setHabitCount(n)` results in the habit count `n` clamped to
[1,10] (so 15 ↦ 10 and 0 ↦ 1), and `setWeekCount(n)` in the weeks-variant
results in the week count `n` clamped to [1,12]: the result is `n` itself
when in range and the violated bound otherwise. -/
theorem c3_counts_clamped :
    (∀ (s : State) (n : Int),
      (s.handleHabitsChange n).habits
          = (if n < 1 then 1 else if 10 < n then 10 else n.toNat) ∧
        (s.handleWeeksChange n).weeks
          = (if n < 1 then 1 else if 12 < n then 12 else n.toNat)) ∧
    (∀ (d : DState) (n : Int),
      (d.handleHabitsChange n).habits
        = (if n < 1 then 1 else if 10 < n then 10 else n.toNat)) := by
  refine ⟨fun s n => ⟨?_, ?_⟩, fun d n => ?_⟩
  · simp only [State.handleHabitsChange]
    split_ifs <;> omega
  · simp only [State.handleWeeksChange]
    split_ifs <;> omega
  · simp only [DState.handleHabitsChange]
    split_ifs <;> omega

/-- C4: `setHabitCount` never changes or removes an existing habit name:
the new name list is the old one followed by exactly the auto-generated
names `"Habit k"` (`k` 1-based) for the new slots (an empty suffix when
the count does not grow past the list), every previously stored name is
still read at the same position, and concretely 3 → 6 → 3 leaves the
first three names untouched. -/
theorem c4_names_append_only :
    (∀ (s : State) (n : Int),
      (s.handleHabitsChange n).habitNames
          = s.habitNames ++
              (List.range ((s.handleHabitsChange n).habits - s.habitNames.length)).map
                (fun i => "Habit " ++ toString (s.habitNames.length + i + 1)) ∧
        ∀ i, i < s.habitNames.length →
          (s.handleHabitsChange n).habitNames[i]? = s.habitNames[i]?) ∧
    (∀ (d : DState) (n : Int),
      (d.handleHabitsChange n).habitNames
        = d.habitNames ++
            (List.range ((d.handleHabitsChange n).habits - d.habitNames.length)).map
              (fun i => "Habit " ++ toString (d.habitNames.length + i + 1))) ∧
    ((initState.handleHabitsChange 6).handleHabitsChange 3).habitNames.take 3
      = ["Exercise", "Read", "Meditate"] := by
  have key : ∀ (old : List String) (newValue : Nat),
      (if old.length < newValue then
          old ++ (List.range (newValue - old.length)).map
            (fun i => "Habit " ++ toString (old.length + i + 1))
        else old)
        = old ++ (List.range (newValue - old.length)).map
            (fun i => "Habit " ++ toString (old.length + i + 1)) := by
    intro old newValue
    by_cases hl : old.length < newValue
    · rw [if_pos hl]
    · rw [if_neg hl]
      have h0 : newValue - old.length = 0 := by omega
      rw [h0]
      simp
  have hs : ∀ (s : State) (n : Int),
      (s.handleHabitsChange n).habitNames
        = s.habitNames ++
            (List.range ((s.handleHabitsChange n).habits - s.habitNames.length)).map
              (fun i => "Habit " ++ toString (s.habitNames.length + i + 1)) := by
    intro s n
    simp only [State.handleHabitsChange]
    exact key s.habitNames ((max 1 (min 10 n)).toNat)
  refine ⟨fun s n => ⟨hs s n, ?_⟩, fun d n => ?_, by decide⟩
  · intro i hi
    rw [hs s n]
    exact List.getElem?_append_left hi
  · simp only [DState.handleHabitsChange]
    exact key d.habitNames ((max 1 (min 10 n)).toNat)

/-- C4 witness: growing the default state to 6 habits still reads
"Exercise" at position 0. -/
theorem c4_names_append_only_witness :
    (initState.handleHabitsChange 6).habitNames[0]? = some "Exercise" :=
  ((c4_names_append_only.1 initState 6).2 0 (by decide)).trans (by decide)

/-- C5: `isChecked` is a total, defensive read: for every mapping and any
pair of indices (in range of the current grid or not — the embedding puts
no bound on them) it returns the stored boolean when the cell has an
entry, and `false` when it has none. -/
theorem c5_isChecked_total_read :
    ∀ (m : HabitData) (h w : Nat),
      (cellValue m h w = none → isCheckedMap m h w = false) ∧
      (∀ b : Bool, cellValue m h w = some b → isCheckedMap m h w = b) := by
  intro m h w
  constructor
  · intro hnone
    unfold cellValue at hnone
    rcases hma : assocGet m h with _ | inner
    · exact isCheckedMap_of_none m h w hma
    · rw [hma] at hnone
      rw [Option.some_bind] at hnone
      rw [isCheckedMap_of_some m h w inner hma, hnone]
      rfl
  · intro b hsome
    unfold cellValue at hsome
    rcases hma : assocGet m h with _ | inner
    · rw [hma] at hsome
      simp at hsome
    · rw [hma] at hsome
      rw [Option.some_bind] at hsome
      rw [isCheckedMap_of_some m h w inner hma, hsome]
      rfl

/-- C5 witness: a stored `true` at cell (0,2) is read back as `true`. -/
theorem c5_isChecked_total_read_witness :
    isCheckedMap [(0, [(2, true)])] 0 2 = true :=
  (c5_isChecked_total_read [(0, [(2, true)])] 0 2).2 true (by decide)

/-- C6: toggle is idempotent: in either variant, applying
`toggle(h, w, v)` twice yields exactly the state of applying it once. -/
theorem c6_toggle_idempotent :
    (∀ (s : State) (h w : Nat) (v : Bool),
      (s.handleCheckChange h w v).handleCheckChange h w v
        = s.handleCheckChange h w v) ∧
    (∀ (d : DState) (h w : Nat) (v : Bool),
      (d.handleCheckChange h w v).handleCheckChange h w v
        = d.handleCheckChange h w v) := by
  constructor
  · intro s h w v
    simp only [State.handleCheckChange]
    rw [toggleCell_toggleCell]
  · intro d h w v
    simp only [DState.handleCheckChange]
    rw [toggleCell_toggleCell]

/-- C7: `setHabitCount` and `setWeekCount` leave the completion mapping
untouched in either variant, so after shrinking a count and growing it
back every previously toggled cell still reads its prior value. -/
theorem c7_resize_preserves_completion :
    (∀ (s : State) (n : Int),
      (s.handleHabitsChange n).checkedState = s.checkedState ∧
        (s.handleWeeksChange n).checkedState = s.checkedState) ∧
    (∀ (d : DState) (n : Int),
      (d.handleHabitsChange n).checkedState = d.checkedState) ∧
    (∀ (s : State) (n1 n2 : Int) (h w : Nat),
      ((s.handleHabitsChange n1).handleHabitsChange n2).isChecked h w
        = s.isChecked h w) ∧
    (∀ (s : State) (n1 n2 : Int) (h w : Nat),
      ((s.handleWeeksChange n1).handleWeeksChange n2).isChecked h w
        = s.isChecked h w) :=
  ⟨fun _ _ => ⟨rfl, rfl⟩, fun _ _ => rfl, fun _ _ _ _ _ => rfl,
    fun _ _ _ _ _ => rfl⟩

/-- C8: weeks-variant scenario: the default state (3 habits, 4 weeks,
nothing toggled) derives completed 0, remaining 12, percentage 0; after
`toggle(0,0,true)` and `toggle(1,2,true)` it derives completed 2,
remaining 10, percentage 17. -/
theorem c8_weeks_scenario :
    initState.derived = ⟨0, 12, 0⟩ ∧
      ((initState.handleCheckChange 0 0 true).handleCheckChange 1 2 true).derived
        = ⟨2, 10, 17⟩ :=
  ⟨by decide, by decide⟩

/-- C9: days-variant: the time-slot count is fixed at 7, so
`completed + remaining = habits × 7` in every state; and from the default
state (3 habits, empty mapping) toggling any 7 distinct in-range cells
true yields percentage 33. -/
theorem c9_days_scenario :
    (∀ d : DState,
      ((d.derived).completed : Int) + (d.derived).remaining
        = ((d.habits * 7 : Nat) : Int)) ∧
    (∀ L : List (Nat × Nat), L.Nodup → L.length = 7 →
      (∀ p ∈ L, p.1 < 3 ∧ p.2 < 7) →
      ((L.foldl (fun d p => d.handleCheckChange p.1 p.2 true) initDState).derived).percentage
        = 33) := by
  constructor
  · intro d
    exact deriveStats_total _ _ _
  · intro L hnd hlen hmem
    have hder :
        (L.foldl (fun d p => d.handleCheckChange p.1 p.2 true) initDState).derived
          = deriveStats
              (L.foldl (fun m p => toggleCell m p.1 p.2 true) ([] : HabitData)) 3 7 := by
      unfold DState.derived
      rw [foldl_toggle_checkedState, foldl_toggle_habits]
      rfl
    rw [hder]
    have hcells :
        checkedCells (L.foldl (fun m p => toggleCell m p.1 p.2 true) ([] : HabitData)) 3 7
          = L.toFinset := by
      ext p
      obtain ⟨h, w⟩ := p
      simp only [checkedCells, Finset.mem_filter, Finset.mem_product,
        Finset.mem_range, List.mem_toFinset]
      constructor
      · rintro ⟨-, hc⟩
        rcases (isCheckedMap_foldl_toggle L [] h w).mp hc with hL | hfalse
        · exact hL
        · exact absurd hfalse (by simp [isCheckedMap_nil])
      · intro hL
        exact ⟨⟨(hmem _ hL).1, (hmem _ hL).2⟩,
          (isCheckedMap_foldl_toggle L [] h w).mpr (Or.inl hL)⟩
    have hcount :
        completedCount
            (L.foldl (fun m p => toggleCell m p.1 p.2 true) ([] : HabitData)) 3 7
          = 7 := by
      rw [completedCount_eq_card, hcells, List.toFinset_card_of_nodup hnd, hlen]
    rw [deriveStats_percentage_def, hcount]
    decide

/-- C9 witness: toggling the seven cells of habit 0 gives percentage 33. -/
theorem c9_days_scenario_witness :
    ((([((0 : Nat), (0 : Nat)), (0, 1), (0, 2), (0, 3), (0, 4), (0, 5), (0, 6)]
            : List (Nat × Nat)).foldl
          (fun d p => d.handleCheckChange p.1 p.2 true) initDState).derived).percentage
      = 33 :=
  c9_days_scenario.2 _ (by decide) (by decide) (by decide)

/-- C10: in every state reachable by any operation sequence in either
variant, completed is between 0 and `habits × timeSlots`, remaining is
nonnegative and percentage lies in [0,100]; and the derivation reads
only in-range cells — two mappings agreeing on all cells `(h, w)` with
`h < habits` and `w < timeSlots` derive identical stats — so stale
entries outside the current bounds never contribute. -/
theorem c10_derived_bounds :
    (∀ ops : List Op,
      ((runOps initState ops).derived).completed
          ≤ (runOps initState ops).habits * (runOps initState ops).weeks ∧
        0 ≤ ((runOps initState ops).derived).remaining ∧
        ((runOps initState ops).derived).percentage ≤ 100) ∧
    (∀ ops : List OpD,
      ((runOpsD initDState ops).derived).completed
          ≤ (runOpsD initDState ops).habits * 7 ∧
        0 ≤ ((runOpsD initDState ops).derived).remaining ∧
        ((runOpsD initDState ops).derived).percentage ≤ 100) ∧
    (∀ (m m' : HabitData) (H W : Nat),
      (∀ h, h < H → ∀ w, w < W → isCheckedMap m h w = isCheckedMap m' h w) →
      deriveStats m H W = deriveStats m' H W) := by
  have hrem : ∀ (m : HabitData) (H W : Nat), 0 ≤ (deriveStats m H W).remaining := by
    intro m H W
    rw [deriveStats_remaining]
    have hc := completedCount_le m H W
    omega
  refine ⟨fun ops => ⟨completedCount_le _ _ _, hrem _ _ _, percentage_le_100 _ _ _⟩,
    fun ops => ⟨completedCount_le _ _ _, hrem _ _ _, percentage_le_100 _ _ _⟩,
    fun m m' H W hag => deriveStats_congr m m' H W hag⟩

/-- C10 witness: a stale entry at habit index 5 (out of range for a 3 × 4
grid) does not change the derived stats of the empty mapping. -/
theorem c10_derived_bounds_witness :
    deriveStats ([] : HabitData) 3 4 = deriveStats [(5, [(0, true)])] 3 4 :=
  c10_derived_bounds.2.2 [] [(5, [(0, true)])] 3 4 (by decide)
